import Mathlib

/-!
Verification development for the bulk email delivery engine
(rate limiter, SMTP sender, queue processor, message parser).

The JavaScript sources are shallowly embedded as Lean functions.
Times are UTC milliseconds modelled as `Int` (JS `Date.now()`).
JS `null`/`undefined` string-ish values are modelled as `Option String`.
-/

namespace SmtpProcess

/-- JS `hay.includes(needle)`: `subAt n h` checks that `n` starts `h`. -/
def subAt : List Char → List Char → Bool
  | [], _ => true
  | _ :: _, [] => false
  | n :: ns, h :: hs => n == h && subAt ns hs

/-- JS `hay.includes(needle)`: occurrence of `needle` anywhere in `hay`. -/
def hasSub (n : List Char) : List Char → Bool
  | [] => subAt n []
  | h :: hs => subAt n (h :: hs) || hasSub n hs

/-- JS `String.prototype.includes`. -/
def strContains (hay needle : String) : Bool :=
  hasSub needle.toList hay.toList

/-- JS `str.split(sep)` for a one-character separator, over the
character list of the string (`''.split('@') = ['']`). -/
def splitOnChar (c : Char) : List Char → List (List Char)
  | [] => [[]]
  | x :: xs =>
    if x = c then [] :: splitOnChar c xs
    else
      match splitOnChar c xs with
      | [] => [[x]]
      | h :: t => (x :: h) :: t

/-- JS `str.toLowerCase()` (ASCII, which is all the engine compares). -/
def strLower (s : String) : String :=
  ⟨s.data.map Char.toLower⟩

/-! ## Rate limiter (`rateLimiter.service.js`)

Domain keys are `Option String`: the rate limiter's own `extractDomain`
always yields a string, but `EmailService.extractDomain` can pass JS
`null` into `recordSend`, which becomes a distinct map key (`none`). -/

/-- The static `domainLimits` map (emails per minute), `constructor`. -/
def domainLimitsLookup (d : String) : Option Nat :=
  if d = "gmail.com" then some 15
  else if d = "googlemail.com" then some 15
  else if d = "outlook.com" then some 20
  else if d = "hotmail.com" then some 20
  else if d = "live.com" then some 20
  else if d = "msn.com" then some 20
  else if d = "yahoo.com" then some 25
  else if d = "aol.com" then some 25
  else if d = "default" then some 30
  else none

/-- `this.globalRateLimit = 35` (emails per second). -/
def globalRateLimit : Nat := 35

/-- `getDomainLimit(domain)`: `domainLimits.get(domain) || domainLimits.get('default')`.
A `none` key (JS `null`) misses the map and falls to the default 30. -/
def getDomainLimit : Option String → Nat
  | none => 30
  | some d => (domainLimitsLookup d).getD 30

/-- `RateLimiterService.extractDomain(email)`: `'unknown'` for a
falsy/non-string input or an address without `'@'`, else the lower-cased
part after the first `'@'` (`email.split('@')[1]`). -/
def extractDomainRL (email : Option String) : String :=
  match email with
  | none => "unknown"
  | some e =>
    if e = "" then "unknown"
    else
      match splitOnChar (Char.ofNat 64) e.data with
      | _ :: p2 :: _ => strLower ⟨p2⟩
      | _ => "unknown"

/-- `EmailService.extractDomain(email)` (`email.service.js`): same split
but returns JS `null` (here `none`) for falsy/non-string input or a
missing `'@'`. -/
def extractDomainES (email : Option String) : Option String :=
  match email with
  | none => none
  | some e =>
    if e = "" then none
    else
      match splitOnChar (Char.ofNat 64) e.data with
      | _ :: p2 :: _ => some (strLower ⟨p2⟩)
      | _ => none

/-- Mutable fields of `RateLimiterService`. `domainCounters` and
`domainCooldowns` are JS `Map`s, modelled as total functions with the
map's get-or-absent behaviour (`[]` / `none` when the key is absent;
the source's `has`-guarded initialisation to `[]` is observationally
identical). -/
structure RateLimiterState where
  domainCounters : Option String → List Int
  globalCounter : List Int
  domainCooldowns : Option String → Option Int

/-- State of a freshly constructed rate limiter. -/
def initRL : RateLimiterState :=
  { domainCounters := fun _ => []
    globalCounter := []
    domainCooldowns := fun _ => none }

/-- JS `Math.min(...list)` on a nonempty list (the source only applies it
to lists of length `≥ limit ≥ 15`). -/
def listMin : List Int → Int
  | [] => 0
  | x :: xs => xs.foldl min x

/-- `canSendToDomain(domain)`: cooldown check, then sliding-window count
against the per-minute limit. (Defined in the source but never called
from the send path.) -/
def canSendToDomain (s : RateLimiterState) (domain : Option String) (now : Int) : Bool :=
  let limit := getDomainLimit domain
  let oneMinuteAgo := now - 60000
  match s.domainCooldowns domain with
  | some cooldownUntil =>
    if now < cooldownUntil then false
    else
      let recent := (s.domainCounters domain).filter (fun t => t > oneMinuteAgo)
      recent.length < limit
  | none =>
    let recent := (s.domainCounters domain).filter (fun t => t > oneMinuteAgo)
    recent.length < limit

/-- `getDelayForDomain(domain)`: prune to the last 60 s; if the window is
full, wait until the oldest kept entry leaves the window. Note: no
cooldown consultation appears in the source of this function. -/
def getDelayForDomain (s : RateLimiterState) (domain : Option String) (now : Int) : Int :=
  let limit := getDomainLimit domain
  let oneMinuteAgo := now - 60000
  let recent := (s.domainCounters domain).filter (fun t => t > oneMinuteAgo)
  if limit ≤ recent.length then
    max 0 (listMin recent + 60000 - now)
  else 0

/-- `getGlobalDelay()`: prunes `globalCounter` in place (returned as the
second component) and computes the wait for the 35/s global window. -/
def getGlobalDelay (s : RateLimiterState) (now : Int) : Int × RateLimiterState :=
  let pruned := s.globalCounter.filter (fun t => t > now - 1000)
  let s' := { s with globalCounter := pruned }
  if globalRateLimit ≤ pruned.length then
    (max 0 (listMin pruned + 1000 - now), s')
  else (0, s')

/-- `getDelayBeforeSend(email)`: the maximum of the per-domain and the
global delay; the domain key is the limiter's own `extractDomain`. -/
def getDelayBeforeSend (s : RateLimiterState) (email : Option String) (now : Int) :
    Int × RateLimiterState :=
  let domain := some (extractDomainRL email)
  let domainDelay := getDelayForDomain s domain now
  let (globalDelay, s') := getGlobalDelay s now
  (max domainDelay globalDelay, s')

/-- `recordSend(domain)`: push `now` onto the domain's counter and onto
the global counter. -/
def recordSend (s : RateLimiterState) (domain : Option String) (now : Int) :
    RateLimiterState :=
  { s with
    domainCounters := fun d =>
      if d = domain then s.domainCounters domain ++ [now] else s.domainCounters d
    globalCounter := s.globalCounter ++ [now] }

/-- `setDomainCooldown(domain, durationMs = 60000)`. -/
def setDomainCooldown (s : RateLimiterState) (domain : Option String)
    (durationMs now : Int) : RateLimiterState :=
  { s with
    domainCooldowns := fun d =>
      if d = domain then some (now + durationMs) else s.domainCooldowns d }

/-! ## Email service (`email.service.js`) -/

/-- Fields of a nodemailer error that `isRetryableError` reads.
`responseCode` is absent (`none`) for pure transport errors; JS numeric
comparisons against `undefined` are all false. -/
structure SmtpError where
  message : String
  code : Option String
  responseCode : Option Int
deriving DecidableEq

/-- JS `x >= a` for a possibly-undefined `x`. -/
def rcGe (rc : Option Int) (a : Int) : Bool :=
  match rc with
  | some v => a ≤ v
  | none => false

/-- JS `x < a` for a possibly-undefined `x`. -/
def rcLt (rc : Option Int) (a : Int) : Bool :=
  match rc with
  | some v => v < a
  | none => false

/-- JS strict equality `x === a` for a possibly-undefined `x`. -/
def rcEq (rc : Option Int) (a : Int) : Bool :=
  match rc with
  | some v => v == a
  | none => false

/-- `isRetryableError(error)`: classification of transport and SMTP
errors. The cascade is translated branch for branch; in particular the
blanket 5xx test precedes the 550/551/552 test, exactly as in the
source. -/
def isRetryableError (error : Option SmtpError) : Bool :=
  match error with
  | none => false
  | some err =>
    let errorMessage := strLower err.message
    let errorCode := (err.code.map strLower).getD ""
    let rc := err.responseCode
    if errorCode == "etimedout" || errorCode == "econnreset" || errorCode == "enotfound" then
      true
    else if (rcGe rc 400 && rcLt rc 500) &&
        (rcEq rc 421 || strContains errorMessage "rate limit"
          || strContains errorMessage "too many"
          || rcEq rc 450 || strContains errorMessage "temporarily deferred"
          || rcEq rc 451 || rcEq rc 452
          || strContains errorMessage "quota" || strContains errorMessage "exceeded") then
      true
    else if rcGe rc 500 && rcLt rc 600 then
      true
    else if rcEq rc 550 || rcEq rc 551 || rcEq rc 552 then
      false
    else
      true

/-- `this.idempotencyWindow = 24 * 60 * 60 * 1000`. -/
def idempotencyWindow : Int := 24 * 60 * 60 * 1000

/-- `this.maxRetries = 3`. -/
def maxRetries : Nat := 3

/-- JS template-literal stringification of a possibly-null value
(`null`/`undefined` both interpolate to a literal word; the exact word is
irrelevant to the claims, only determinism matters). -/
def jsInterp : Option String → String
  | none => "undefined"
  | some s => s

/-- `generateMessageId(to, subject, content)` hashes
`` `${to}:${subject}:${content.substring(0, 100)}` `` with SHA-256. The
hash itself is modelled by its preimage: equal inputs give equal ids,
which is the only property the engine relies on. Reaching this function
with a null `content` throws (`content.substring`); that case is handled
by the caller `sendEmail` below. -/
def fingerprint (toAddr subject : Option String) (content : String) : String :=
  jsInterp toAddr ++ ":" ++ jsInterp subject ++ ":" ++ content.take 100

/-- Mutable state of `EmailService` together with the rate limiter it
consults: `processedMessages` maps a fingerprint to its `processedAt`
time. -/
structure EmailSvcState where
  processed : String → Option Int
  rl : RateLimiterState

/-- Fresh service state (empty idempotency map, fresh limiter). -/
def initES : EmailSvcState :=
  { processed := fun _ => none, rl := initRL }

/-- Result of one `transporter.sendMail` submission. -/
inductive SmtpResult where
  | ok
  | err (e : SmtpError)
deriving DecidableEq

/-- What one `sendEmail` call produced.
`sentOk`/`skipped`/`failed` mirror the returned result objects
(`success`, `skipped`, `isRetryable`, `responseCode`, `attempt`);
`thrown` models an exception escaping `sendEmail` (carrying the JS error
message). -/
inductive SendEmailOutcome where
  | sentOk (attempt : Nat)
  | skipped
  | failed (isRetryable : Bool) (responseCode : Option Int) (attempt : Nat)
  | thrown (msg : String)
deriving DecidableEq

/-- A `sendEmail` call's outcome, final state, and the number of SMTP
submissions it performed. -/
structure SendEmailTrace where
  outcome : SendEmailOutcome
  state : EmailSvcState
  smtpCalls : Nat

/-- The `while (attempt < this.maxRetries)` loop of `sendEmail`.
`smtp attempt` is the transport's answer to the numbered attempt,
`bk attempt` the (randomised) backoff actually slept after it.
`remaining` counts loop iterations left; the fall-through after the loop
returns `{success: false}` with no `isRetryable` field (JS `undefined`,
falsy — modelled `false`), though it is unreachable for `maxRetries ≥ 1`. -/
def attemptLoop (smtp : Nat → SmtpResult) (bk : Nat → Int) (fp : String)
    (rdom : Option String) :
    Nat → Nat → Int → EmailSvcState → SendEmailTrace
  | 0, attempt, _, st => ⟨.failed false none attempt, st, attempt⟩
  | remaining + 1, attempt, time, st =>
    let att := attempt + 1
    match smtp att with
    | .ok =>
      -- markAsProcessed, then rateLimiter.recordSend(recipientDomain)
      let st' : EmailSvcState :=
        { processed := fun k => if k = fp then some time else st.processed k
          rl := recordSend st.rl rdom time }
      ⟨.sentOk att, st', att⟩
    | .err e =>
      let retr := isRetryableError (some e)
      if !retr || maxRetries ≤ att then
        let needCooldown :=
          rcEq e.responseCode 421 || strContains (strLower e.message) "rate limit"
        let st' : EmailSvcState :=
          if needCooldown then { st with rl := setDomainCooldown st.rl rdom 60000 time }
          else st
        ⟨.failed retr e.responseCode att, st', att⟩
      else
        attemptLoop smtp bk fp rdom remaining att (time + bk att) st

/-- Body of `sendEmail` after the idempotency gate: rate-limit wait,
pre-send jitter `jit`, then the attempt loop. -/
def sendEmailCore (toAddr subject : Option String) (content : String)
    (now jit : Int) (smtp : Nat → SmtpResult) (bk : Nat → Int)
    (st : EmailSvcState) : SendEmailTrace :=
  let fp := fingerprint toAddr subject content
  let rdom := extractDomainES toAddr
  let (d, rl1) := getDelayBeforeSend st.rl toAddr now
  attemptLoop smtp bk fp rdom maxRetries 0 (now + d + jit) { st with rl := rl1 }

/-- `sendEmail(to, subject, content, ...)`. A null/undefined `content`
throws a `TypeError` inside `generateMessageId` (`content.substring`)
before the idempotency check, the rate-limit gate, and any SMTP attempt.
Otherwise: idempotency check (returning `Skipped` within the 24 h window
and lazily evicting stale entries), then `sendEmailCore`. -/
def sendEmail (toAddr subject content : Option String) (now jit : Int)
    (smtp : Nat → SmtpResult) (bk : Nat → Int) (st : EmailSvcState) :
    SendEmailTrace :=
  match content with
  | none =>
    ⟨.thrown "Cannot read properties of undefined (reading 'substring')", st, 0⟩
  | some c =>
    let fp := fingerprint toAddr subject c
    match st.processed fp with
    | some processedAt =>
      if now - processedAt < idempotencyWindow then
        ⟨.skipped, st, 0⟩
      else
        let st1 : EmailSvcState :=
          { st with processed := fun k => if k = fp then none else st.processed k }
        sendEmailCore toAddr subject c now jit smtp bk st1
    | none => sendEmailCore toAddr subject c now jit smtp bk st

/-! ## Queue processor (`cronProcessor.service.js`) -/

/-- The queue-side actions `processMessage` takes for one message:
`acked` = `deleteMessage(receiptHandle)` called;
`deadLettered` = `sendToDLQ(...)` called. -/
structure QueueEffects where
  acked : Bool
  deadLettered : Bool
deriving DecidableEq

/-- Queue-side behaviour of `processMessage`/`handleFailure` as a
function of what `sendEmail` produced for the message:
success (`Sent` or `Skipped`) → delete; failure with
`isRetryable = false` (`Permanent`) → DLQ then delete; failure with
`isRetryable = true` (`Retryable`) → neither; an exception → the catch
block, which re-delivers only when the message text marks a transient
failure and otherwise dead-letters and deletes. -/
def processMessageEffects : SendEmailOutcome → QueueEffects
  | .sentOk _ => ⟨true, false⟩
  | .skipped => ⟨true, false⟩
  | .failed isRetryable _ _ => if isRetryable then ⟨false, false⟩ else ⟨true, true⟩
  | .thrown msg => if strContains msg "Transient failure" then ⟨false, false⟩ else ⟨true, true⟩

/-- `this.maxConcurrency = 10`. -/
def maxConcurrency : Nat := 10

/-- The chunk split of `processMessagesWithConcurrency`:
`messages.slice(i, i + maxConcurrency)` for `i = 0, 10, 20, …`.
Structured with a fuel argument (the list's length bounds the number of
loop iterations, since every iteration consumes at least one message)
so that the definition computes by kernel reduction. -/
def chunkListGo {α : Type} : Nat → List α → List (List α)
  | 0, _ => []
  | _, [] => []
  | fuel + 1, x :: xs =>
    (x :: xs).take maxConcurrency :: chunkListGo fuel ((x :: xs).drop maxConcurrency)

/-- The chunk split, entry point. -/
def chunkList {α : Type} (l : List α) : List (List α) :=
  chunkListGo l.length l

/-- One entry of the `results` array of `processMessagesWithConcurrency`:
either the value returned by `processMessage` (here: the effects it took)
or the `{success: false, error: 'timeout'}` record pushed without
attempting the message. -/
inductive ChunkOutcome where
  | fromSend (o : SendEmailOutcome)
  | timeoutMarked
deriving DecidableEq

/-- The chunk loop of `processMessagesWithConcurrency`: `clock i` is the
remaining Lambda time observed when entering the `i`-th chunk, and
`oracle m` is the outcome `processMessage` resolves for message `m`.
When fewer than 5000 ms remain the current chunk is marked with timeout
records and the loop breaks (`break`), leaving any later chunks without
result entries. -/
def processChunks {α : Type} (oracle : α → SendEmailOutcome) (clock : Nat → Int) :
    List (List α) → Nat → List ChunkOutcome
  | [], _ => []
  | chunk :: rest, i =>
    if clock i < 5000 then
      chunk.map (fun _ => ChunkOutcome.timeoutMarked)
    else
      chunk.map (fun m => ChunkOutcome.fromSend (oracle m))
        ++ processChunks oracle clock rest (i + 1)

/-- `processMessagesWithConcurrency(messages, lambdaDeadline)`. -/
def processWithConcurrency {α : Type} (oracle : α → SendEmailOutcome)
    (clock : Nat → Int) (messages : List α) : List ChunkOutcome :=
  processChunks oracle clock (chunkList messages) 0

/-- Number of messages for which a send was actually attempted (entries
produced by `processMessage` rather than by the timeout mark). -/
def sendsAttempted (results : List ChunkOutcome) : Nat :=
  (results.filter (fun r => match r with
    | ChunkOutcome.fromSend _ => true
    | ChunkOutcome.timeoutMarked => false)).length

/-! ## Message parsing (`sqs.service.js`) -/

/-- The JS values that flow through `parseMessage`'s field selection:
`undefined`/`null`, a string, or a message-attribute object with
optional `StringValue` / `stringValue` string fields. -/
inductive JVal where
  | undef
  | jstr (s : String)
  | jattr (sv sv2 : Option String)
deriving DecidableEq

/-- JS truthiness of the values above. -/
def truthy : JVal → Bool
  | .undef => false
  | .jstr s => s ≠ ""
  | .jattr _ _ => true

/-- JS `a || b`. -/
def jsOr (a b : JVal) : JVal :=
  if truthy a then a else b

/-- An optional JSON string field as a JS value. -/
def optToJ : Option String → JVal
  | none => .undef
  | some s => .jstr s

/-- `getAttributeValue(attr)` inside `parseMessage`:
`if (!attr) return null; return attr.StringValue || attr.stringValue || attr;`.
On a plain string, both property reads are `undefined`, so the string
itself is returned. -/
def getAttributeValue (attr : JVal) : JVal :=
  if !truthy attr then .undef
  else
    match attr with
    | .jattr sv sv2 => jsOr (optToJ sv) (jsOr (optToJ sv2) (.jattr sv sv2))
    | v => v

/-- The JSON body of a queue message; every recognised field is an
optional string (`bodyF` is the `body` field). -/
structure MsgBody where
  mto : Option String
  msubject : Option String
  content : Option String
  html : Option String
  text : Option String
  bodyF : Option String
  contentType : Option String
deriving DecidableEq

/-- A fetched queue message after JSON-parsing its body: the two
attributes `parseMessage` consults plus the body fields. -/
structure SqsMessage where
  receiptHandle : String
  messageId : String
  attrTo : JVal
  attrSubject : JVal
  body : MsgBody
deriving DecidableEq

/-- The fields of the object returned by `parseMessage` that the engine
consumes. -/
structure ParsedMessage where
  receiptHandle : String
  messageId : String
  pto : JVal
  psubject : JVal
  pcontent : JVal
  pcontentType : String
deriving DecidableEq

/-- Truthiness of an optional JSON string field. -/
def truthyOpt : Option String → Bool
  | none => false
  | some s => s ≠ ""

/-- `parseMessage(sqsMessage)` field selection:
`to = getAttributeValue(attributes.to) || body.to`, same for `subject`;
`content = body.content || body.html || body.text || body.body`;
`contentType = body.contentType || (body.html ? 'html' : 'text')`. -/
def parseMessage (m : SqsMessage) : ParsedMessage :=
  { receiptHandle := m.receiptHandle
    messageId := m.messageId
    pto := jsOr (getAttributeValue m.attrTo) (optToJ m.body.mto)
    psubject := jsOr (getAttributeValue m.attrSubject) (optToJ m.body.msubject)
    pcontent := jsOr (optToJ m.body.content)
      (jsOr (optToJ m.body.html) (jsOr (optToJ m.body.text) (optToJ m.body.bodyF)))
    pcontentType :=
      match m.body.contentType with
      | some s => if s ≠ "" then s else (if truthyOpt m.body.html then "html" else "text")
      | none => if truthyOpt m.body.html then "html" else "text" }

/-! ## Specification-side definitions

These follow the wording of the specification (for refinement claims)
rather than the source, and are compared with the source embeddings
above. -/

/-- The spec's global wait: `max(0, (oldest kept global timestamp +
1000 ms) − now)` when at least `GLOBAL_RATE_PER_SECOND` (35) kept
timestamps lie within the last 1000 ms, and 0 otherwise. -/
def globalWaitSpec (s : RateLimiterState) (now : Int) : Int :=
  let kept := s.globalCounter.filter (fun t => t > now - 1000)
  if globalRateLimit ≤ kept.length then
    match kept.min? with
    | some oldest => max 0 (oldest + 1000 - now)
    | none => 0
  else 0

/-- The spec's domain wait: `max(0, (oldest kept domain timestamp +
60000 ms) − now)` when at least `per_minute_limit(domain)` kept
timestamps lie within the last 60000 ms, and 0 otherwise. -/
def domainWaitSpec (s : RateLimiterState) (domain : Option String) (now : Int) : Int :=
  let kept := (s.domainCounters domain).filter (fun t => t > now - 60000)
  if getDomainLimit domain ≤ kept.length then
    match kept.min? with
    | some oldest => max 0 (oldest + 60000 - now)
    | none => 0
  else 0

/-! ## Helper lemmas -/

lemma listMin_eq_min? {l : List Int} (h : l ≠ []) : l.min? = some (listMin l) := by
  cases l with
  | nil => exact absurd rfl h
  | cons x xs => exact List.min?_cons'


lemma listMin_mem {l : List Int} (h : l ≠ []) : listMin l ∈ l :=
  List.min?_mem (fun a b => min_choice a b) (listMin_eq_min? h)

lemma length_filter_lt_of_mem_not {l : List Int} {p : Int → Bool} {a : Int}
    (ha : a ∈ l) (hpa : p a = false) : (l.filter p).length < l.length := by
  induction l with
  | nil => cases ha
  | cons x xs ih =>
    rcases List.mem_cons.mp ha with h | h
    · subst h
      simp only [List.filter_cons, hpa, Bool.false_eq_true, if_neg, ite_false,
        List.length_cons]
      exact Nat.lt_succ_of_le (List.length_filter_le _ _)
    · cases hpx : p x with
      | false =>
        simp only [List.filter_cons, hpx, ite_false, List.length_cons]
        exact Nat.lt_succ_of_lt (ih h)
      | true =>
        simp only [List.filter_cons, hpx, ite_true, List.length_cons]
        exact Nat.succ_lt_succ (ih h)

lemma length_filter_mono {l : List Int} {p q : Int → Bool}
    (h : ∀ a, p a = true → q a = true) :
    (l.filter p).length ≤ (l.filter q).length :=
  (List.monotone_filter_right l h).length_le

lemma domainLimitsLookup_pos {d : String} {v : Nat}
    (h : domainLimitsLookup d = some v) : 0 < v := by
  unfold domainLimitsLookup at h
  split_ifs at h <;> simp_all <;> omega

lemma getDomainLimit_pos (d : Option String) : 0 < getDomainLimit d := by
  cases d with
  | none => simp [getDomainLimit]
  | some s =>
    simp only [getDomainLimit]
    cases h : domainLimitsLookup s with
    | none => simp
    | some v => simpa using domainLimitsLookup_pos h

lemma getDelayBeforeSend_initRL (email : Option String) (now : Int) :
    (getDelayBeforeSend initRL email now).1 = 0 := by
  have h := getDomainLimit_pos (some (extractDomainRL email))
  simp [getDelayBeforeSend, getGlobalDelay, getDelayForDomain, initRL,
    globalRateLimit, Nat.le_zero]
  omega

/-! ## Claims -/

/-- C1. The claim says SMTP 550/551/552 are classified Permanent
(non-retryable) and routed to dead-letter. In the source the blanket
`responseCode >= 500 && responseCode < 600 → retryable` branch precedes
the 550/551/552 branch, so the permanent branch (and its own comment
`Permanent failures … Mailbox doesn't exist or message too large`) is
unreachable: the classifier returns retryable for all three codes, the
send is retried up to `maxRetries`, and the worker then leaves the
message unacked instead of dead-lettering it. -/
theorem smtp_permanent_codes_marked_retryable :
    isRetryableError (some ⟨"", none, some 550⟩) = true ∧
    isRetryableError (some ⟨"", none, some 551⟩) = true ∧
    isRetryableError (some ⟨"", none, some 552⟩) = true ∧
    (let tr := sendEmail (some "a@b.com") (some "s") (some "c") 0 0
        (fun _ => SmtpResult.err ⟨"", none, some 550⟩) (fun _ => 0) initES
     tr.outcome = SendEmailOutcome.failed true (some 550) 3 ∧
     processMessageEffects tr.outcome = ⟨false, false⟩) := by
  refine ⟨rfl, rfl, rfl, ?_, ?_⟩ <;> rfl

/-- C2. The claim says an active cooldown forces the computed wait to be
at least `cooldown_until − now`. In the source `getDelayForDomain`
(hence `getDelayBeforeSend`/`waitIfNeeded`) never consults
`domainCooldowns`: with a cooldown of 60 s active on `gmail.com` and
empty windows, the computed wait is 0 even though `canSendToDomain`
(which does check the cooldown, but is never called on the send path)
reports the domain as blocked. -/
theorem cooldown_not_enforced_by_wait :
    (let st : RateLimiterState :=
      { domainCounters := fun _ => []
        globalCounter := []
        domainCooldowns := fun d => if d = some "gmail.com" then some 60000 else none }
     st.domainCooldowns (some "gmail.com") = some 60000 ∧
     (0 : Int) < 60000 ∧
     extractDomainRL (some "u@gmail.com") = "gmail.com" ∧
     (getDelayBeforeSend st (some "u@gmail.com") 0).1 = 0 ∧
     canSendToDomain st (some "gmail.com") 0 = false) := by
  refine ⟨rfl, by decide, ?_, ?_, ?_⟩ <;> rfl

/-- C5. With no cooldown in force for the derived domain (a condition
the source in fact never tests), the computed wait before a send equals
the maximum of the spec's global wait and the spec's per-domain wait. -/
theorem delay_before_send_eq_max_of_window_waits
    (s : RateLimiterState) (email : Option String) (now : Int)
    (hcd : ∀ u, s.domainCooldowns (some (extractDomainRL email)) = some u → u ≤ now) :
    (getDelayBeforeSend s email now).1 =
      max (globalWaitSpec s now)
        (domainWaitSpec s (some (extractDomainRL email)) now) := by
  have hg : (getGlobalDelay s now).1 = globalWaitSpec s now := by
    simp only [getGlobalDelay, globalWaitSpec]
    split
    · next hlen =>
      have hne : s.globalCounter.filter (fun t => t > now - 1000) ≠ [] := by
        intro hnil
        rw [hnil] at hlen
        simp [globalRateLimit] at hlen
      rw [listMin_eq_min? hne]
    · rfl
  have hd : getDelayForDomain s (some (extractDomainRL email)) now =
      domainWaitSpec s (some (extractDomainRL email)) now := by
    simp only [getDelayForDomain, domainWaitSpec]
    split
    · next hlen =>
      have hne : (s.domainCounters (some (extractDomainRL email))).filter
          (fun t => t > now - 60000) ≠ [] := by
        intro hnil
        rw [hnil] at hlen
        have := getDomainLimit_pos (some (extractDomainRL email))
        simp at hlen
        omega
      rw [listMin_eq_min? hne]
    · rfl
  simp only [getDelayBeforeSend]
  rw [hd, hg, max_comm]

/-- Witness for `delay_before_send_eq_max_of_window_waits` at a concrete
state with no cooldown. -/
theorem delay_before_send_eq_max_of_window_waits_witness :
    (getDelayBeforeSend initRL (some "u@gmail.com") 5).1 =
      max (globalWaitSpec initRL 5)
        (domainWaitSpec initRL (some (extractDomainRL (some "u@gmail.com"))) 5) :=
  delay_before_send_eq_max_of_window_waits initRL (some "u@gmail.com") 5
    (fun u h => by simp [initRL] at h)

/-- Whether an outcome is the exception path rather than one of the four
terminal `SendOutcome` values. -/
def isThrownOutcome : SendEmailOutcome → Bool
  | .thrown _ => true
  | _ => false

/-- C3. `processMessage` resolves each message to exactly one result
(`processMessageEffects` is a total function of the outcome), and for the
four terminal outcomes the queue-side behaviour is: `deleteMessage`
(ack) is invoked iff the outcome is `Sent` (`sentOk`), `Skipped`
(`skipped`) or `Permanent` (`failed` with `isRetryable = false`); on a
`Retryable` outcome nothing is acked and nothing is dead-lettered, so
the queue's visibility timeout redelivers the message. -/
theorem ack_iff_sent_skipped_or_permanent
    (o : SendEmailOutcome) (h : isThrownOutcome o = false) :
    ((processMessageEffects o).acked = true ↔
      (o = SendEmailOutcome.skipped ∨ (∃ k, o = SendEmailOutcome.sentOk k) ∨
        ∃ rc k, o = SendEmailOutcome.failed false rc k)) ∧
    (∀ rc k, o = SendEmailOutcome.failed true rc k →
      processMessageEffects o = ⟨false, false⟩) := by
  cases o with
  | sentOk k => simp [processMessageEffects]
  | skipped => simp [processMessageEffects]
  | failed r rc k =>
    cases r with
    | false => simp [processMessageEffects]
    | true => simp [processMessageEffects]
  | thrown msg => simp [isThrownOutcome] at h

/-- Witness for `ack_iff_sent_skipped_or_permanent` at the `Sent` and
`Retryable` outcomes. -/
theorem ack_iff_sent_skipped_or_permanent_witness :
    ((processMessageEffects (SendEmailOutcome.sentOk 1)).acked = true ↔
      (SendEmailOutcome.sentOk 1 = SendEmailOutcome.skipped ∨
        (∃ k, SendEmailOutcome.sentOk 1 = SendEmailOutcome.sentOk k) ∨
        ∃ rc k, SendEmailOutcome.sentOk 1 = SendEmailOutcome.failed false rc k)) ∧
    processMessageEffects (SendEmailOutcome.failed true none 3) = ⟨false, false⟩ :=
  ⟨(ack_iff_sent_skipped_or_permanent (SendEmailOutcome.sentOk 1) rfl).1,
    (ack_iff_sent_skipped_or_permanent (SendEmailOutcome.failed true none 3) rfl).2
      none 3 rfl⟩

/-- C10. A null/undefined `content` (for example a queue message whose
body has none of `content`/`html`/`text`/`body`, which `parseMessage`
maps to `undefined`) makes `sendEmail` throw from
`generateMessageId` (`content.substring`) before the idempotency check,
the rate-limit gate and any SMTP submission: the service state is
returned untouched, no SMTP call is made, no `SendOutcome` result object
is produced, and the worker handles the message in its generic `catch`
block (dead-letter plus ack). -/
theorem null_content_throws_before_effects
    (toA subj : Option String) (now jit : Int) (smtp : Nat → SmtpResult)
    (bk : Nat → Int) (st : EmailSvcState) (m : SqsMessage)
    (hc : m.body.content = none) (hh : m.body.html = none)
    (ht : m.body.text = none) (hb : m.body.bodyF = none) :
    (parseMessage m).pcontent = JVal.undef ∧
    (let tr := sendEmail toA subj none now jit smtp bk st
     isThrownOutcome tr.outcome = true ∧ tr.smtpCalls = 0 ∧ tr.state = st ∧
     (processMessageEffects tr.outcome).acked = true ∧
     (processMessageEffects tr.outcome).deadLettered = true) := by
  refine ⟨?_, rfl, rfl, rfl, rfl, rfl⟩
  simp [parseMessage, hc, hh, ht, hb, optToJ, jsOr, truthy]

/-- Witness for `null_content_throws_before_effects` at a concrete
message and state. -/
theorem null_content_throws_before_effects_witness :
    (parseMessage ⟨"r", "m", JVal.undef, JVal.undef,
        ⟨some "x@y.com", some "s", none, none, none, none, none⟩⟩).pcontent
      = JVal.undef ∧
    (let tr := sendEmail (some "x@y.com") (some "s") none 0 0
        (fun _ => SmtpResult.ok) (fun _ => 0) initES
     isThrownOutcome tr.outcome = true ∧ tr.smtpCalls = 0 ∧ tr.state = initES ∧
     (processMessageEffects tr.outcome).acked = true ∧
     (processMessageEffects tr.outcome).deadLettered = true) :=
  null_content_throws_before_effects (some "x@y.com") (some "s") 0 0
    (fun _ => SmtpResult.ok) (fun _ => 0) initES
    ⟨"r", "m", JVal.undef, JVal.undef,
      ⟨some "x@y.com", some "s", none, none, none, none, none⟩⟩
    rfl rfl rfl rfl

/-- C8 counterexample message: the `to` message-attribute is present as
an object carrying no string value (for instance a `Binary`-typed
attribute), while the body carries `to`. -/
def c8cexMsg : SqsMessage :=
  ⟨"r", "m", JVal.jattr none none, JVal.undef,
    ⟨some "x@y.com", some "s", some "c", none, none, none, none⟩⟩

/-- C8 counterexample: the claim says the recipient falls back to
`body.to` whenever the attribute's string value is not present, but
`getAttributeValue` ends in `|| attr`, so a present attribute object
without a string value is itself returned (it is truthy) and `body.to`
is never consulted. -/
theorem parse_attr_object_beats_body_cex :
    (parseMessage c8cexMsg).pto = JVal.jattr none none ∧
    c8cexMsg.body.mto = some "x@y.com" ∧
    (parseMessage c8cexMsg).pto ≠ JVal.jstr "x@y.com" := by
  refine ⟨rfl, rfl, by decide⟩

lemma truthy_optToJ (o : Option String) : truthy (optToJ o) = truthyOpt o := by
  cases o <;> rfl

lemma jsOr_of_falsy (a b : JVal) (h : truthy a = false) : jsOr a b = b := by
  simp [jsOr, h]

lemma jsOr_of_truthy (a b : JVal) (h : truthy a = true) : jsOr a b = a := by
  simp [jsOr, h]

/-- C8 amended. The field precedence of `parseMessage`, with presence
read as JS truthiness (non-empty string) and with the source's actual
fallthrough for attributes that are present without a truthy string
value: such an attribute is returned raw instead of `body.to`. -/
theorem parseMessage_field_choice (m : SqsMessage) :
    (∀ s sv2, m.attrTo = JVal.jattr (some s) sv2 → s ≠ "" →
      (parseMessage m).pto = JVal.jstr s) ∧
    (∀ sv s2, m.attrTo = JVal.jattr sv (some s2) → truthyOpt sv = false → s2 ≠ "" →
      (parseMessage m).pto = JVal.jstr s2) ∧
    (∀ sv sv2, m.attrTo = JVal.jattr sv sv2 → truthyOpt sv = false →
      truthyOpt sv2 = false → (parseMessage m).pto = JVal.jattr sv sv2) ∧
    (m.attrTo = JVal.undef → (parseMessage m).pto = optToJ m.body.mto) ∧
    (∀ s sv2, m.attrSubject = JVal.jattr (some s) sv2 → s ≠ "" →
      (parseMessage m).psubject = JVal.jstr s) ∧
    (∀ sv s2, m.attrSubject = JVal.jattr sv (some s2) → truthyOpt sv = false →
      s2 ≠ "" → (parseMessage m).psubject = JVal.jstr s2) ∧
    (∀ sv sv2, m.attrSubject = JVal.jattr sv sv2 → truthyOpt sv = false →
      truthyOpt sv2 = false → (parseMessage m).psubject = JVal.jattr sv sv2) ∧
    (m.attrSubject = JVal.undef → (parseMessage m).psubject = optToJ m.body.msubject) ∧
    (truthyOpt m.body.content = true → (parseMessage m).pcontent = optToJ m.body.content) ∧
    (truthyOpt m.body.content = false → truthyOpt m.body.html = true →
      (parseMessage m).pcontent = optToJ m.body.html) ∧
    (truthyOpt m.body.content = false → truthyOpt m.body.html = false →
      truthyOpt m.body.text = true → (parseMessage m).pcontent = optToJ m.body.text) ∧
    (truthyOpt m.body.content = false → truthyOpt m.body.html = false →
      truthyOpt m.body.text = false → (parseMessage m).pcontent = optToJ m.body.bodyF) ∧
    (∀ s, m.body.contentType = some s → s ≠ "" → (parseMessage m).pcontentType = s) ∧
    (truthyOpt m.body.contentType = false → truthyOpt m.body.html = true →
      (parseMessage m).pcontentType = "html") ∧
    (truthyOpt m.body.contentType = false → truthyOpt m.body.html = false →
      (parseMessage m).pcontentType = "text") := by
  refine ⟨?_, ?_, ?_, ?_, ?_, ?_, ?_, ?_, ?_, ?_, ?_, ?_, ?_, ?_, ?_⟩
  · intro s sv2 h hs
    simp [parseMessage, getAttributeValue, truthy, jsOr, optToJ, h, hs]
  · intro sv s2 h hsv hs2
    cases sv with
    | none => simp [parseMessage, getAttributeValue, truthy, jsOr, optToJ, h, hs2]
    | some s =>
      have hs : s = "" := by
        by_contra hne
        simp [truthyOpt, hne] at hsv
      subst hs
      simp [parseMessage, getAttributeValue, truthy, jsOr, optToJ, h, hs2]
  · intro sv sv2 h hsv hsv2
    cases sv with
    | none =>
      cases sv2 with
      | none => simp [parseMessage, getAttributeValue, truthy, jsOr, optToJ, h]
      | some s2 =>
        have hs2 : s2 = "" := by
          by_contra hne
          simp [truthyOpt, hne] at hsv2
        subst hs2
        simp [parseMessage, getAttributeValue, truthy, jsOr, optToJ, h]
    | some s =>
      have hs : s = "" := by
        by_contra hne
        simp [truthyOpt, hne] at hsv
      subst hs
      cases sv2 with
      | none => simp [parseMessage, getAttributeValue, truthy, jsOr, optToJ, h]
      | some s2 =>
        have hs2 : s2 = "" := by
          by_contra hne
          simp [truthyOpt, hne] at hsv2
        subst hs2
        simp [parseMessage, getAttributeValue, truthy, jsOr, optToJ, h]
  · intro h
    simp [parseMessage, getAttributeValue, truthy, jsOr, h]
  · intro s sv2 h hs
    simp [parseMessage, getAttributeValue, truthy, jsOr, optToJ, h, hs]
  · intro sv s2 h hsv hs2
    cases sv with
    | none => simp [parseMessage, getAttributeValue, truthy, jsOr, optToJ, h, hs2]
    | some s =>
      have hs : s = "" := by
        by_contra hne
        simp [truthyOpt, hne] at hsv
      subst hs
      simp [parseMessage, getAttributeValue, truthy, jsOr, optToJ, h, hs2]
  · intro sv sv2 h hsv hsv2
    cases sv with
    | none =>
      cases sv2 with
      | none => simp [parseMessage, getAttributeValue, truthy, jsOr, optToJ, h]
      | some s2 =>
        have hs2 : s2 = "" := by
          by_contra hne
          simp [truthyOpt, hne] at hsv2
        subst hs2
        simp [parseMessage, getAttributeValue, truthy, jsOr, optToJ, h]
    | some s =>
      have hs : s = "" := by
        by_contra hne
        simp [truthyOpt, hne] at hsv
      subst hs
      cases sv2 with
      | none => simp [parseMessage, getAttributeValue, truthy, jsOr, optToJ, h]
      | some s2 =>
        have hs2 : s2 = "" := by
          by_contra hne
          simp [truthyOpt, hne] at hsv2
        subst hs2
        simp [parseMessage, getAttributeValue, truthy, jsOr, optToJ, h]
  · intro h
    simp [parseMessage, getAttributeValue, truthy, jsOr, h]
  · intro h
    simp only [parseMessage]
    exact jsOr_of_truthy _ _ ((truthy_optToJ _).trans h)
  · intro hcf hh
    simp only [parseMessage]
    rw [jsOr_of_falsy _ _ ((truthy_optToJ _).trans hcf),
      jsOr_of_truthy _ _ ((truthy_optToJ _).trans hh)]
  · intro hcf hhf ht
    simp only [parseMessage]
    rw [jsOr_of_falsy _ _ ((truthy_optToJ _).trans hcf),
      jsOr_of_falsy _ _ ((truthy_optToJ _).trans hhf),
      jsOr_of_truthy _ _ ((truthy_optToJ _).trans ht)]
  · intro hcf hhf htf
    simp only [parseMessage]
    rw [jsOr_of_falsy _ _ ((truthy_optToJ _).trans hcf),
      jsOr_of_falsy _ _ ((truthy_optToJ _).trans hhf),
      jsOr_of_falsy _ _ ((truthy_optToJ _).trans htf)]
  · intro s h hs
    simp [parseMessage, h, hs]
  · intro hctf hh
    cases hct : m.body.contentType with
    | none =>
      cases hh2 : m.body.html with
      | none => simp [truthyOpt, hh2] at hh
      | some s =>
        have hs : s ≠ "" := by
          rw [hh2] at hh
          simpa [truthyOpt] using hh
        simp [parseMessage, hct, truthyOpt, hh2, hs]
    | some s =>
      have hs : s = "" := by
        by_contra hne
        rw [hct] at hctf
        simp [truthyOpt, hne] at hctf
      subst hs
      simp [parseMessage, hct, hh]
  · intro hctf hhf
    cases hct : m.body.contentType with
    | none => simp [parseMessage, hct, hhf]
    | some s =>
      have hs : s = "" := by
        by_contra hne
        rw [hct] at hctf
        simp [truthyOpt, hne] at hctf
      subst hs
      simp [parseMessage, hct, hhf]

/-- C8 witness message: `to` attribute carries a `StringValue`, no
`subject` attribute, body carries `html` only. -/
def c8witMsg : SqsMessage :=
  ⟨"r", "m", JVal.jattr (some "a@b.com") none, JVal.undef,
    ⟨some "z@w.com", some "s", none, some "<b>x</b>", none, none, none⟩⟩

/-- Witness for `parseMessage_field_choice` on a concrete message. -/
theorem parseMessage_field_choice_witness :
    (parseMessage c8witMsg).pto = JVal.jstr "a@b.com" ∧
    (parseMessage c8witMsg).psubject = optToJ c8witMsg.body.msubject ∧
    (parseMessage c8witMsg).pcontent = optToJ c8witMsg.body.html ∧
    (parseMessage c8witMsg).pcontentType = "html" := by
  obtain ⟨h1, _, _, _, _, _, _, h8, _, h10, _, _, _, h14, _⟩ :=
    parseMessage_field_choice c8witMsg
  exact ⟨h1 "a@b.com" none rfl (by decide), h8 rfl,
    h10 (by decide) (by decide), h14 (by decide) (by decide)⟩

/-- C7 counterexample: a batch of 11 messages splits into chunks of 10
and 1; with under 5000 ms remaining at the first chunk, the loop pushes
timeout records for the entering chunk only and `break`s, so the results
list has 10 entries for 11 messages — the eleventh message receives no
outcome at all, contradicting "one outcome per remaining message". -/
theorem chunk_timeout_misses_later_messages_cex :
    (processWithConcurrency (fun _ : Nat => SendEmailOutcome.sentOk 1)
        (fun _ => 4000) (List.range 11)).length = 10 ∧
    (List.range 11).length = 11 := by
  refine ⟨by decide, by decide⟩

/-- C7 amended. Whenever the chunk loop enters a chunk with fewer than
5000 ms remaining, no send is attempted for that chunk or any later
message; the entering chunk's messages each receive the
`{success: false, error: 'timeout'}` (retryable, hence never acked)
record, while the later, not-yet-entered messages receive no outcome
entry at all. -/
theorem chunk_timeout_marks_entering_chunk_only {α : Type}
    (oracle : α → SendEmailOutcome) (clock : Nat → Int)
    (chunk : List α) (rest : List (List α)) (i : Nat)
    (h : clock i < 5000) :
    processChunks oracle clock (chunk :: rest) i =
      chunk.map (fun _ => ChunkOutcome.timeoutMarked) ∧
    sendsAttempted (processChunks oracle clock (chunk :: rest) i) = 0 := by
  have he : processChunks oracle clock (chunk :: rest) i =
      chunk.map (fun _ => ChunkOutcome.timeoutMarked) := by
    simp [processChunks, h]
  refine ⟨he, ?_⟩
  rw [he]
  induction chunk with
  | nil => simp [sendsAttempted]
  | cons x xs ih => simpa [sendsAttempted, List.filter_map] using ih

/-- Witness for `chunk_timeout_marks_entering_chunk_only` on a concrete
two-chunk batch entered with 4000 ms remaining. -/
theorem chunk_timeout_marks_entering_chunk_only_witness :
    processChunks (fun _ : Nat => SendEmailOutcome.sentOk 1) (fun _ => 4000)
        ([0, 1, 2] :: [[3, 4]]) 0 =
      [0, 1, 2].map (fun _ => ChunkOutcome.timeoutMarked) ∧
    sendsAttempted (processChunks (fun _ : Nat => SendEmailOutcome.sentOk 1)
        (fun _ => 4000) ([0, 1, 2] :: [[3, 4]]) 0) = 0 :=
  chunk_timeout_marks_entering_chunk_only (fun _ : Nat => SendEmailOutcome.sentOk 1)
    (fun _ => 4000) [0, 1, 2] [[3, 4]] 0 (by decide)

/-! Reduction helpers for `sendEmail` runs whose first attempt succeeds. -/

lemma attemptLoop_first_ok (smtp : Nat → SmtpResult) (bk : Nat → Int)
    (fp : String) (rdom : Option String) (time : Int) (st : EmailSvcState)
    (h : smtp 1 = SmtpResult.ok) :
    attemptLoop smtp bk fp rdom maxRetries 0 time st =
      ⟨SendEmailOutcome.sentOk 1,
        ⟨fun k => if k = fp then some time else st.processed k,
          recordSend st.rl rdom time⟩, 1⟩ := by
  show attemptLoop smtp bk fp rdom (2 + 1) 0 time st = _
  simp [attemptLoop, h]

lemma sendEmailCore_first_ok (toA subj : Option String) (c : String)
    (now jit : Int) (smtp : Nat → SmtpResult) (bk : Nat → Int)
    (st : EmailSvcState) (h : smtp 1 = SmtpResult.ok) :
    sendEmailCore toA subj c now jit smtp bk st =
      ⟨SendEmailOutcome.sentOk 1,
        ⟨fun k => if k = fingerprint toA subj c
            then some (now + (getDelayBeforeSend st.rl toA now).1 + jit)
            else st.processed k,
          recordSend (getDelayBeforeSend st.rl toA now).2 (extractDomainES toA)
            (now + (getDelayBeforeSend st.rl toA now).1 + jit)⟩, 1⟩ := by
  simp only [sendEmailCore]
  rw [attemptLoop_first_ok _ _ _ _ _ _ h]

lemma sendEmail_fresh_first_ok (toA subj : Option String) (c : String)
    (now jit : Int) (smtp : Nat → SmtpResult) (bk : Nat → Int)
    (st : EmailSvcState)
    (hfresh : st.processed (fingerprint toA subj c) = none)
    (h : smtp 1 = SmtpResult.ok) :
    sendEmail toA subj (some c) now jit smtp bk st =
      ⟨SendEmailOutcome.sentOk 1,
        ⟨fun k => if k = fingerprint toA subj c
            then some (now + (getDelayBeforeSend st.rl toA now).1 + jit)
            else st.processed k,
          recordSend (getDelayBeforeSend st.rl toA now).2 (extractDomainES toA)
            (now + (getDelayBeforeSend st.rl toA now).1 + jit)⟩, 1⟩ := by
  simp only [sendEmail, hfresh]
  exact sendEmailCore_first_ok toA subj c now jit smtp bk st h

lemma getDelayBeforeSend_snd_domainCounters (s : RateLimiterState)
    (email : Option String) (now : Int) :
    ((getDelayBeforeSend s email now).2).domainCounters = s.domainCounters := by
  simp only [getDelayBeforeSend, getGlobalDelay]
  split <;> rfl

lemma extractDomainRL_unknown_of_ES_none {toA : Option String}
    (h : extractDomainES toA = none) : extractDomainRL toA = "unknown" := by
  cases toA with
  | none => rfl
  | some e =>
    by_cases he : e = ""
    · simp [extractDomainRL, he]
    · simp only [extractDomainES, he, if_false, ite_false] at h
      simp only [extractDomainRL, he, if_false, ite_false]
      cases hm : splitOnChar (Char.ofNat 64) e.data with
      | nil => rfl
      | cons a t =>
        cases t with
        | nil => rfl
        | cons b t2 =>
          rw [hm] at h
          simp at h

/-- C9 counterexample: for the malformed recipient `"noat"` the wait
gate keys the domain `"unknown"` (the rate limiter's own
`extractDomain`), but after the successful submission `sendEmail` calls
`recordSend` with `EmailService.extractDomain`'s value — JS `null` — so
the send is recorded under the `null` map key and the `"unknown"`
counter stays empty, contradicting "every rate-limiter operation … uses
the domain key \"unknown\"". -/
theorem malformed_recipient_recordSend_null_key_cex :
    (let tr := sendEmail (some "noat") (some "s") (some "c") 0 0
        (fun _ => SmtpResult.ok) (fun _ => 0) initES
     extractDomainRL (some "noat") = "unknown" ∧
     extractDomainES (some "noat") = none ∧
     tr.outcome = SendEmailOutcome.sentOk 1 ∧
     tr.state.rl.domainCounters none = [0] ∧
     tr.state.rl.domainCounters (some "unknown") = []) := by
  refine ⟨rfl, rfl, rfl, ?_, ?_⟩ <;> rfl

/-- C9 amended. For a malformed recipient (non-string or no `'@'`):
the wait gate (`waitIfNeeded`/`getDelayBeforeSend`) uses the domain key
`"unknown"`, whose per-minute limit is the default 30; but the
`recordSend` performed after a successful submission is invoked with
`EmailService.extractDomain`'s value, which is `null` for malformed
recipients, so the send is recorded under the `null` key and nothing is
ever recorded under `"unknown"`. -/
theorem malformed_recipient_gate_unknown_record_null
    (toA : Option String) (subj c : String) (now jit : Int) (bk : Nat → Int)
    (st : EmailSvcState)
    (hmal : extractDomainES toA = none)
    (hfresh : st.processed (fingerprint toA (some subj) c) = none) :
    extractDomainRL toA = "unknown" ∧
    getDomainLimit (some "unknown") = 30 ∧
    (let tr := sendEmail toA (some subj) (some c) now jit
        (fun _ => SmtpResult.ok) bk st
     let sendTime := now + (getDelayBeforeSend st.rl toA now).1 + jit
     tr.outcome = SendEmailOutcome.sentOk 1 ∧
     tr.state.rl.domainCounters none = st.rl.domainCounters none ++ [sendTime] ∧
     tr.state.rl.domainCounters (some "unknown") =
       st.rl.domainCounters (some "unknown")) := by
  refine ⟨extractDomainRL_unknown_of_ES_none hmal, rfl, ?_, ?_, ?_⟩
  all_goals rw [sendEmail_fresh_first_ok toA (some subj) c now jit _ bk st hfresh rfl]
  all_goals simp [recordSend, hmal, getDelayBeforeSend_snd_domainCounters]

/-- Witness for `malformed_recipient_gate_unknown_record_null` at the
concrete recipient `"noat"` and a fresh service. -/
theorem malformed_recipient_gate_unknown_record_null_witness :
    extractDomainRL (some "noat") = "unknown" ∧
    getDomainLimit (some "unknown") = 30 ∧
    (let tr := sendEmail (some "noat") (some "s") (some "c") 0 0
        (fun _ => SmtpResult.ok) (fun _ => 0) initES
     let sendTime := (0 : Int) + (getDelayBeforeSend initES.rl (some "noat") 0).1 + 0
     tr.outcome = SendEmailOutcome.sentOk 1 ∧
     tr.state.rl.domainCounters none = initES.rl.domainCounters none ++ [sendTime] ∧
     tr.state.rl.domainCounters (some "unknown") =
       initES.rl.domainCounters (some "unknown")) :=
  malformed_recipient_gate_unknown_record_null (some "noat") "s" "c" 0 0
    (fun _ => 0) initES rfl rfl

/-- C4. Calling `sendEmail` twice sequentially on identical recipient,
subject and content, with the first call's first SMTP attempt
succeeding and the second call arriving within the 24-hour idempotency
window of the first call's success: the first call returns the success
result (`Sent`) after one SMTP submission, the second returns the
skipped/idempotency result immediately — zero SMTP submissions and a
completely unchanged service and rate-limiter state (so no rate-limit
accounting) — and SMTP is submitted to exactly once in total. -/
theorem send_twice_idempotent_skip
    (ta subj c : String) (t0 t1 jit0 jit1 : Int)
    (smtp1 smtp2 : Nat → SmtpResult) (bk1 bk2 : Nat → Int) (st0 : EmailSvcState)
    (hfresh : st0.processed (fingerprint (some ta) (some subj) c) = none)
    (hok : smtp1 1 = SmtpResult.ok)
    (hwin : t1 - (t0 + (getDelayBeforeSend st0.rl (some ta) t0).1 + jit0) <
      idempotencyWindow) :
    (let tr1 := sendEmail (some ta) (some subj) (some c) t0 jit0 smtp1 bk1 st0
     let tr2 := sendEmail (some ta) (some subj) (some c) t1 jit1 smtp2 bk2 tr1.state
     tr1.outcome = SendEmailOutcome.sentOk 1 ∧ tr1.smtpCalls = 1 ∧
     tr2.outcome = SendEmailOutcome.skipped ∧ tr2.smtpCalls = 0 ∧
     tr2.state = tr1.state) := by
  rw [sendEmail_fresh_first_ok (some ta) (some subj) c t0 jit0 smtp1 bk1 st0 hfresh hok]
  refine ⟨rfl, rfl, ?_, ?_, ?_⟩ <;>
    simp [sendEmail, hwin]

/-- Witness for `send_twice_idempotent_skip` on a concrete pair of
identical sends one second apart. -/
theorem send_twice_idempotent_skip_witness :
    (let tr1 := sendEmail (some "a@b.com") (some "hi") (some "hello") 0 0
        (fun _ => SmtpResult.ok) (fun _ => 0) initES
     let tr2 := sendEmail (some "a@b.com") (some "hi") (some "hello") 1000 0
        (fun _ => SmtpResult.ok) (fun _ => 0) tr1.state
     tr1.outcome = SendEmailOutcome.sentOk 1 ∧ tr1.smtpCalls = 1 ∧
     tr2.outcome = SendEmailOutcome.skipped ∧ tr2.smtpCalls = 0 ∧
     tr2.state = tr1.state) :=
  send_twice_idempotent_skip "a@b.com" "hi" "hello" 0 1000 0 0
    (fun _ => SmtpResult.ok) (fun _ => SmtpResult.ok) (fun _ => 0) (fun _ => 0)
    initES rfl rfl
    (by rw [show initES.rl = initRL from rfl, getDelayBeforeSend_initRL]; decide)

/-! ## C6: the global sliding-window invariant -/

/-- Number of `global_timestamps` entries lying strictly within the last
1000 ms of `now`. -/
def countRecent (l : List Int) (now : Int) : Nat :=
  (l.filter (fun x => x > now - 1000)).length

/-- One send of the C6 scenario: a completed `waitIfNeeded` — time
advancing by exactly the returned delay — immediately followed by the
`recordSend` that `sendEmail` performs for the same send (with the
domain key the email service passes). Returns the limiter state and the
completion time. -/
def sendStep (s : RateLimiterState) (email : Option String) (t : Int) :
    RateLimiterState × Int :=
  let dr := getDelayBeforeSend s email t
  (recordSend dr.2 (extractDomainES email) (t + dr.1), t + dr.1)

/-- A sequential execution of such sends: each event is a recipient and
the wall-clock instant its `waitIfNeeded` is entered. -/
def runSends (s : RateLimiterState) (t : Int) :
    List (Option String × Int) → RateLimiterState × Int
  | [] => (s, t)
  | (email, ts) :: rest =>
    runSends (sendStep s email ts).1 (sendStep s email ts).2 rest

/-- The sequentiality condition of the claim: each send is entered no
earlier than the completion of the previous one (no interleaving, no
clock regression). -/
def timesOk (s : RateLimiterState) (t : Int) :
    List (Option String × Int) → Bool
  | [] => true
  | (email, ts) :: rest =>
    decide (t ≤ ts) &&
      timesOk (sendStep s email ts).1 (sendStep s email ts).2 rest

lemma countRecent_anti (l : List Int) {t t' : Int} (h : t ≤ t') :
    countRecent l t' ≤ countRecent l t := by
  apply length_filter_mono
  intro a ha
  simp only [decide_eq_true_eq] at *
  omega

lemma getGlobalDelay_snd (s : RateLimiterState) (now : Int) :
    (getGlobalDelay s now).2 =
      { s with globalCounter := s.globalCounter.filter (fun x => x > now - 1000) } := by
  simp only [getGlobalDelay]
  split <;> rfl

lemma getGlobalDelay_fst_nonneg (s : RateLimiterState) (now : Int) :
    0 ≤ (getGlobalDelay s now).1 := by
  simp only [getGlobalDelay]
  split
  · exact le_max_left _ _
  · exact le_refl 0

lemma getDelayBeforeSend_decomp (s : RateLimiterState) (email : Option String)
    (now : Int) :
    getDelayBeforeSend s email now =
      (max (getDelayForDomain s (some (extractDomainRL email)) now)
          (getGlobalDelay s now).1,
        (getGlobalDelay s now).2) := by
  rcases hgg : getGlobalDelay s now with ⟨gd, s2⟩
  simp [getDelayBeforeSend, hgg]

/-- The inductive step: if the invariant holds at time `t` and a send is
entered at `t0 ≥ t`, it holds again right after the `recordSend`. -/
lemma sendStep_inv (s : RateLimiterState) (email : Option String) {t t0 : Int}
    (h1 : countRecent s.globalCounter t ≤ globalRateLimit)
    (h2 : ∀ e ∈ s.globalCounter, e ≤ t) (hle : t ≤ t0) :
    countRecent (sendStep s email t0).1.globalCounter (sendStep s email t0).2
        ≤ globalRateLimit ∧
    ∀ e ∈ (sendStep s email t0).1.globalCounter, e ≤ (sendStep s email t0).2 := by
  have hdec := getDelayBeforeSend_decomp s email t0
  set pruned := s.globalCounter.filter (fun x => x > t0 - 1000) with hpr
  set d := (getDelayBeforeSend s email t0).1 with hdf
  set T := t0 + d with hTd
  have hsnd : ((getDelayBeforeSend s email t0).2).globalCounter = pruned := by
    rw [hdec, getGlobalDelay_snd]
  have hGC : (sendStep s email t0).1.globalCounter = pruned ++ [T] := by
    show (recordSend (getDelayBeforeSend s email t0).2 (extractDomainES email)
        T).globalCounter = pruned ++ [T]
    simp [recordSend, hsnd]
  have hT2 : (sendStep s email t0).2 = T := rfl
  have hd_ge_gd : (getGlobalDelay s t0).1 ≤ d := by
    rw [hdf, hdec]
    exact le_max_right _ _
  have hd_nonneg : 0 ≤ d :=
    le_trans (getGlobalDelay_fst_nonneg s t0) hd_ge_gd
  have hT_ge : t0 ≤ T := by omega
  have hlen : pruned.length ≤ globalRateLimit := by
    have hmono := countRecent_anti s.globalCounter hle
    have heq : countRecent s.globalCounter t0 = pruned.length := rfl
    omega
  have hTin : T > T - 1000 := by omega
  have hsplit : countRecent (pruned ++ [T]) T = countRecent pruned T + 1 := by
    simp [countRecent, List.filter_append, hTin]
  constructor
  · rw [hGC, hT2, hsplit]
    by_cases hfull : globalRateLimit ≤ pruned.length
    · have hgd_eq : (getGlobalDelay s t0).1 = max 0 (listMin pruned + 1000 - t0) := by
        simp only [getGlobalDelay]
        rw [if_pos hfull]
      have hne : pruned ≠ [] := by
        intro hz
        rw [hz] at hfull
        simp [globalRateLimit] at hfull
      have hmem := listMin_mem hne
      have hmT : listMin pruned ≤ T - 1000 := by
        have hgd2 : listMin pruned + 1000 - t0 ≤ (getGlobalDelay s t0).1 := by
          rw [hgd_eq]
          exact le_max_right _ _
        omega
      have hlt : countRecent pruned T < pruned.length := by
        apply length_filter_lt_of_mem_not hmem
        simp
        omega
      omega
    · have hcle : countRecent pruned T ≤ pruned.length := List.length_filter_le _ _
      have : pruned.length < globalRateLimit := Nat.lt_of_not_le hfull
      omega
  · rw [hGC, hT2]
    intro e he
    rcases List.mem_append.mp he with h | h
    · have hmem : e ∈ s.globalCounter := List.mem_of_mem_filter h
      have := h2 e hmem
      omega
    · simp at h
      omega

/-- C6. In every sequential execution in which each `recordSend` is
immediately preceded by a completed `waitIfNeeded` for the same send
(time advancing by exactly the returned delay, sends never entered
before the previous send completed), the number of `global_timestamps`
entries lying strictly within the last 1000 ms is at most
`GLOBAL_RATE_PER_SECOND` (35) after the final `recordSend` — and since
the execution list is universally quantified, after every `recordSend`
of every such execution. -/
theorem recordSend_global_window_bound
    (events : List (Option String × Int)) (s : RateLimiterState) (t : Int)
    (h1 : countRecent s.globalCounter t ≤ globalRateLimit)
    (h2 : ∀ e ∈ s.globalCounter, e ≤ t)
    (hts : timesOk s t events = true) :
    countRecent (runSends s t events).1.globalCounter (runSends s t events).2
      ≤ globalRateLimit := by
  induction events generalizing s t with
  | nil => simpa [runSends] using h1
  | cons ev rest ih =>
    obtain ⟨email, ts⟩ := ev
    simp only [timesOk, Bool.and_eq_true, decide_eq_true_eq] at hts
    obtain ⟨hle, hts'⟩ := hts
    have hstep := sendStep_inv s email h1 h2 hle
    simp only [runSends]
    exact ih _ _ hstep.1 hstep.2 hts'

/-- Witness for `recordSend_global_window_bound` on a fresh limiter and
two back-to-back sends. -/
theorem recordSend_global_window_bound_witness :
    countRecent (runSends initRL 0 [(none, 0), (none, 50)]).1.globalCounter
        (runSends initRL 0 [(none, 0), (none, 50)]).2 ≤ globalRateLimit :=
  recordSend_global_window_bound [(none, 0), (none, 50)] initRL 0
    (by decide) (by decide) (by decide)

end SmtpProcess
